import Mathlib

/-!
Shallow embedding of the `mongodbatlas` custom-DB-role resource controller
(src/unnamed/part_000) and of the Global Clusters API client
(src/vendor/github.com/mongodb/go-client-mongodb-atlas/mongodbatlas/global_clusters.go),
with theorems checking the repository's specification against it.

Conventions of the embedding:
* Go strings become `String`, Go bools become `Bool`, Go slices become `List`.
* Go functions returning `error` become `Option String` (the error message,
  `none` = nil error) or `Except` values.
* A nilable Go pointer argument becomes an `Option`.
* The generic Terraform attribute maps (`map[string]interface{}`) that flow
  between the schema store and the expand/flatten helpers always carry every
  schema key: Terraform's schema layer supplies the zero value (`""` / `false`)
  for keys a flatten helper did not write. They are therefore modelled as
  records with all fields present, zero values standing for absent keys.
* Network calls are not performed; the client functions return the request
  they would issue, and the resource controller records the ordered list of
  API calls it makes.
-/

namespace MongoDBAtlas

/-- `matlas.Resource` (an action's resource entry). -/
structure Resource where
  Collection : String
  Db : String
  Cluster : Bool
deriving DecidableEq, Repr

/-- `matlas.Action` (one entry of a custom role's action list). -/
structure Action where
  Action : String
  Resources : List Resource
deriving DecidableEq, Repr

/-- `matlas.InheritedRole`. -/
structure InheritedRole where
  Db : String
  Role : String
deriving DecidableEq, Repr

/-- `matlas.CustomDBRole`. -/
structure CustomDBRole where
  RoleName : String
  Actions : List Action
  InheritedRoles : List InheritedRole
deriving DecidableEq, Repr

/-- Error message returned by `validateActions` when the cluster flag is set
together with a collection or database name (part_000 line 228). -/
def clusterExclusiveErr : String :=
  "setting `actions.resources.cluster` is exclusive with `actions.resources.collection_name` and `actions.resources.database_name`"

/-- Error message returned by `validateActions` when the cluster flag is unset
and collection or database is empty (part_000 line 232). -/
def clusterOrBothErr : String :=
  "either `actions.resources.cluster` or both `actions.resources.collection_name` and `actions.resources.database_name` must be set"

/-- Inner loop of `validateActions` (part_000 lines 225-235): walk one
action's resource entries, returning the first error found. -/
def validateResources : List Resource → Option String
  | [] => none
  | r :: rs =>
    if r.Cluster then
      if r.Collection ≠ "" ∨ r.Db ≠ "" then some clusterExclusiveErr
      else validateResources rs
    else
      if r.Collection = "" ∨ r.Db = "" then some clusterOrBothErr
      else validateResources rs

/-- Outer loop of `validateActions` (part_000 lines 224-236). -/
def validateActionsList : List Action → Option String
  | [] => none
  | a :: as =>
    match validateResources a.Resources with
    | some e => some e
    | none => validateActionsList as

/-- `validateActions` (part_000 lines 223-238): checks each resource entry of
each action; `none` means the role passed validation. -/
def validateActions (customDBRoleReq : CustomDBRole) : Option String :=
  validateActionsList customDBRoleReq.Actions

/-- A single resource entry is in one of the two accepted shapes: whole-cluster
(flag set, both names empty) or scoped (flag unset, both names non-empty). -/
def resourceShapeOk (r : Resource) : Prop :=
  (r.Cluster = true ∧ r.Db = "" ∧ r.Collection = "") ∨
  (r.Cluster = false ∧ r.Db ≠ "" ∧ r.Collection ≠ "")

/- Generic attribute-store representations (Terraform `map[string]interface{}`
entries with schema zero-values for absent keys). -/

/-- One entry of the `actions.*.resources` set as stored in the attribute map. -/
structure ResourceMap where
  collection_name : String
  database_name : String
  cluster : Bool
deriving DecidableEq, Repr

/-- One entry of the `actions` list as stored in the attribute map. -/
structure ActionMap where
  action : String
  resources : List ResourceMap
deriving DecidableEq, Repr

/-- One entry of the `inherited_roles` list as stored in the attribute map. -/
structure InheritedRoleMap where
  database_name : String
  role_name : String
deriving DecidableEq, Repr

/-- The slice of `*schema.ResourceData` the custom-DB-role controller touches:
the resource attributes, the decoded state id (`decodeStateID(d.Id())`, an
external helper reversing `encodeStateID`, modelled as the pair it yields),
and the two `d.HasChange` answers the update handler consults. -/
structure RoleData where
  project_id : String
  role_name : String
  actions : List ActionMap
  inherited_roles : List InheritedRoleMap
  stateProjectID : String
  stateRoleName : String
  hasChangeActions : Bool
  hasChangeInheritedRoles : Bool
deriving Repr

/-- `expandActionResources` (part_000 lines 257-273). -/
def expandActionResources (resources : List ResourceMap) : List Resource :=
  resources.map fun resourceMap =>
    if resourceMap.cluster then
      { Collection := "", Db := "", Cluster := resourceMap.cluster }
    else
      { Collection := resourceMap.collection_name
        Db := resourceMap.database_name
        Cluster := false }

/-- `expandActions` (part_000 lines 240-255): `GetOk` reports not-ok on the
zero value (empty list), in which case the nil slice is returned. -/
def expandActions (d : RoleData) : List Action :=
  match d.actions with
  | [] => []
  | rs => rs.map fun actionMap =>
      { Action := actionMap.action
        Resources := expandActionResources actionMap.resources }

/-- `flattenActionResources` (part_000 lines 286-301): the cluster branch
writes only the `cluster` key; the other keys read back as zero values. -/
def flattenActionResources (resources : List Resource) : List ResourceMap :=
  resources.map fun v =>
    if v.Cluster then
      { collection_name := "", database_name := "", cluster := v.Cluster }
    else
      { collection_name := v.Collection, database_name := v.Db, cluster := false }

/-- `flattenActions` (part_000 lines 275-284). -/
def flattenActions (actions : List Action) : List ActionMap :=
  actions.map fun v =>
    { action := v.Action, resources := flattenActionResources v.Resources }

/-- `expandInheritedRoles` (part_000 lines 303-318). -/
def expandInheritedRoles (d : RoleData) : List InheritedRole :=
  match d.inherited_roles with
  | [] => []
  | rs => rs.map fun roleMap =>
      { Db := roleMap.database_name, Role := roleMap.role_name }

/-- `flattenInheritedRoles` (part_000 lines 320-329). -/
def flattenInheritedRoles (roles : List InheritedRole) : List InheritedRoleMap :=
  roles.map fun v => { database_name := v.Db, role_name := v.Role }

/- ### The resource controller as a state machine over an abstract API -/

/-- One network call issued through `conn.CustomDBRoles`. -/
inductive ApiCall where
  | getRole (projectID roleName : String)
  | createRole (projectID : String) (req : CustomDBRole)
  | updateRole (projectID roleName : String) (req : CustomDBRole)
  | deleteRole (projectID roleName : String)
deriving DecidableEq, Repr

/-- The remote `CustomDBRoles` service, as the responses it would give to each
call (the environment the controller runs against). -/
structure RolesAPI where
  get : String → String → Except String CustomDBRole
  create : String → CustomDBRole → Except String CustomDBRole
  update : String → String → CustomDBRole → Except String CustomDBRole

/-- The request struct Create builds from the attribute store
(part_000 lines 98-102). -/
def customDBRoleReqOf (d : RoleData) : CustomDBRole :=
  { RoleName := d.role_name
    Actions := expandActions d
    InheritedRoles := expandInheritedRoles d }

/-- `resourceMongoDBAtlasCustomDBRoleRead` (part_000 lines 123-145):
returns (error, calls issued, updated attribute store). -/
def resourceRead (d : RoleData) (api : RolesAPI) :
    Option String × List ApiCall × RoleData :=
  match api.get d.stateProjectID d.stateRoleName with
  | .error e =>
      (some ("error getting custom db role information: " ++ e),
       [.getRole d.stateProjectID d.stateRoleName], d)
  | .ok customDBRole =>
      (none, [.getRole d.stateProjectID d.stateRoleName],
       { d with
          role_name := customDBRole.RoleName
          actions := flattenActions customDBRole.Actions
          inherited_roles := flattenInheritedRoles customDBRole.InheritedRoles })

/-- Outcome of the Create handler: the returned error, the ordered network
calls it issued, and the value passed to `d.SetId` (decoded), if any. -/
structure CreateOutcome where
  err : Option String
  calls : List ApiCall
  idSet : Option (String × String)
deriving Repr

/-- `resourceMongoDBAtlasCustomDBRoleCreate` (part_000 lines 94-121):
expand, validate, create, set id, then read. -/
def resourceCreate (d : RoleData) (api : RolesAPI) : CreateOutcome :=
  let req := customDBRoleReqOf d
  match validateActions req with
  | some e => { err := some e, calls := [], idSet := none }
  | none =>
    match api.create d.project_id req with
    | .error e =>
        { err := some ("error creating custom db role: " ++ e)
          calls := [.createRole d.project_id req]
          idSet := none }
    | .ok customDBRoleRes =>
        let d1 := { d with
                      stateProjectID := d.project_id
                      stateRoleName := customDBRoleRes.RoleName }
        let r := resourceRead d1 api
        { err := r.1
          calls := .createRole d.project_id req :: r.2.1
          idSet := some (d.project_id, customDBRoleRes.RoleName) }

/-- `resourceMongoDBAtlasCustomDBRoleUpdate` (part_000 lines 147-179):
fetch, merge changed fields, validate, update, then read.
Returns (error, ordered calls issued). -/
def resourceUpdate (d : RoleData) (api : RolesAPI) :
    Option String × List ApiCall :=
  match api.get d.stateProjectID d.stateRoleName with
  | .error e =>
      (some ("error getting custom db role information: " ++ e),
       [.getRole d.stateProjectID d.stateRoleName])
  | .ok customDBRole =>
    let role1 :=
      if d.hasChangeActions then
        { customDBRole with Actions := expandActions d }
      else customDBRole
    match validateActions role1 with
    | some e => (some e, [.getRole d.stateProjectID d.stateRoleName])
    | none =>
      let role2 :=
        if d.hasChangeInheritedRoles then
          { role1 with InheritedRoles := expandInheritedRoles d }
        else role1
      match api.update d.stateProjectID d.stateRoleName role2 with
      | .error e =>
          (some ("error updating custom db role (" ++ d.stateRoleName ++ "): " ++ e),
           [.getRole d.stateProjectID d.stateRoleName,
            .updateRole d.stateProjectID d.stateRoleName role2])
      | .ok _ =>
          let r := resourceRead d api
          (r.1,
           .getRole d.stateProjectID d.stateRoleName ::
             .updateRole d.stateProjectID d.stateRoleName role2 :: r.2.1)

/- ### Import-id parsing -/

/-- First occurrence of `sep`, as (before, after); `none` when absent.
Building block for Go's `strings.SplitN(s, sep, 2)` with a one-character
separator. -/
def splitFirst (sep : Char) : List Char → Option (List Char × List Char)
  | [] => none
  | c :: cs =>
    if c = sep then some ([], cs)
    else (splitFirst sep cs).map fun p => (c :: p.1, p.2)

/-- Go `strings.SplitN(s, sep, 2)` for a one-character separator: the part
before the first occurrence and everything after it, or `[s]` when the
separator does not occur. -/
def goSplitN2 (s : List Char) (sep : Char) : List (List Char) :=
  match splitFirst sep s with
  | none => [s]
  | some (a, b) => [a, b]

/-- Error returned on a malformed import id (part_000 line 200). -/
def importFormatErr : String :=
  "import format error: to import a custom db role use the format {project_id}-{role_name}"

/-- The identifier-parsing prefix of `resourceMongoDBAtlasCustomDBRoleImportState`
(part_000 lines 198-204): split `d.Id()` on the first `-` into exactly two
parts, `(projectID, roleName)`, or fail before any network call. -/
def importStateParts (id : String) : Except String (String × String) :=
  match goSplitN2 id.data '-' with
  | [a, b] => .ok (String.mk a, String.mk b)
  | _ => .error importFormatErr

/- ### Global Clusters client (global_clusters.go) -/

/-- `ManagedNamespace` (global_clusters.go lines 37-41). -/
structure ManagedNamespace where
  Db : String
  Collection : String
  CustomShardKey : String
deriving DecidableEq, Repr

/-- `CustomZoneMapping` (global_clusters.go lines 47-50). -/
structure CustomZoneMapping where
  Location : String
  Zone : String
deriving DecidableEq, Repr

/-- `CustomZoneMappingsRequest` (global_clusters.go lines 43-45). -/
structure CustomZoneMappingsRequest where
  CustomZoneMappings : List CustomZoneMapping
deriving DecidableEq, Repr

/-- `NewArgError(arg, reason)` from the client library. -/
structure ArgError where
  arg : String
  reason : String
deriving DecidableEq, Repr

/-- A JSON request body handed to `client.NewRequest` (nil body = `none`). -/
inductive RequestBody where
  | managedNamespace (ns : ManagedNamespace)
  | zoneMappings (req : CustomZoneMappingsRequest)
deriving DecidableEq, Repr

/-- The HTTP request a Global Clusters operation builds before `client.Do`:
method, path, the query parameters `q.Add`ed in order, and the body. -/
structure HttpRequest where
  method : String
  path : String
  queryParams : List (String × String)
  body : Option RequestBody
deriving DecidableEq, Repr

/-- Lexicographic order on character lists by code point: the order
`sort.Strings` uses on the (ASCII) query-parameter keys in `net/url`. -/
def keyLe : List Char → List Char → Bool
  | [], _ => true
  | _ :: _, [] => false
  | c :: cs, d :: ds =>
    if c.toNat = d.toNat then keyLe cs ds else Nat.blt c.toNat d.toNat

/-- Insert a key/value pair into a key-sorted association list
(building block for `net/url` `Values.Encode`, which emits keys sorted). -/
def insertByKey (p : String × String) :
    List (String × String) → List (String × String)
  | [] => [p]
  | q :: qs => if keyLe p.1.data q.1.data then p :: q :: qs else q :: insertByKey p qs

/-- Sort query parameters by key (insertion sort). -/
def sortByKey (l : List (String × String)) : List (String × String) :=
  l.foldr insertByKey []

/-- `net/url` `Values.Encode` for parameters needing no percent-escaping:
keys sorted, `k=v` pairs joined by `&`. -/
def urlValuesEncode (q : List (String × String)) : String :=
  String.intercalate "&" ((sortByKey q).map fun p => p.1 ++ "=" ++ p.2)

/-- `req.URL.RawQuery` after `req.URL.RawQuery = q.Encode()`. -/
def rawQuery (req : HttpRequest) : String :=
  urlValuesEncode req.queryParams

/-- `globalClustersBasePath = "groups/%s/clusters/%s/globalWrites/%s"`
instantiated by `fmt.Sprintf` (global_clusters.go line 9). -/
def globalClustersBasePath (groupID clusterName tail : String) : String :=
  "groups/" ++ groupID ++ "/clusters/" ++ clusterName ++ "/globalWrites/" ++ tail

/-- `GlobalClustersServiceOp.Get` (global_clusters.go lines 54-73), up to the
point the request is handed to the transport: either the argument error or
the request issued. -/
def globalClustersGet (groupID clusterName : String) :
    Except ArgError HttpRequest :=
  if clusterName = "" then .error ⟨"username", "must be set"⟩
  else .ok
    { method := "GET"
      path := "groups/" ++ groupID ++ "/clusters/" ++ clusterName ++ "/globalWrites"
      queryParams := []
      body := none }

/-- `AddManagedNamespace` (global_clusters.go lines 77-96). -/
def addManagedNamespace (groupID clusterName : String)
    (createRequest : Option ManagedNamespace) : Except ArgError HttpRequest :=
  match createRequest with
  | none => .error ⟨"createRequest", "cannot be nil"⟩
  | some ns => .ok
      { method := "POST"
        path := globalClustersBasePath groupID clusterName "managedNamespaces"
        queryParams := []
        body := some (.managedNamespace ns) }

/-- `DeleteManagedNamespace` (global_clusters.go lines 100-124): nil body,
`collection` and `db` passed as query parameters (the argument-error name
`"createRequest"` is as in the source). -/
def deleteManagedNamespace (groupID clusterName : String)
    (deleteRequest : Option ManagedNamespace) : Except ArgError HttpRequest :=
  match deleteRequest with
  | none => .error ⟨"createRequest", "cannot be nil"⟩
  | some ns => .ok
      { method := "DELETE"
        path := globalClustersBasePath groupID clusterName "managedNamespaces"
        queryParams := [("collection", ns.Collection), ("db", ns.Db)]
        body := none }

/-- `AddCustomZoneMappings` (global_clusters.go lines 128-147). -/
def addCustomZoneMappings (groupID clusterName : String)
    (createRequest : Option CustomZoneMappingsRequest) :
    Except ArgError HttpRequest :=
  match createRequest with
  | none => .error ⟨"createRequest", "cannot be nil"⟩
  | some r => .ok
      { method := "POST"
        path := globalClustersBasePath groupID clusterName "customZoneMapping"
        queryParams := []
        body := some (.zoneMappings r) }

/-- `DeleteCustomZoneMappings` (global_clusters.go lines 151-165): no argument
validation, unconditional DELETE. -/
def deleteCustomZoneMappings (groupID clusterName : String) :
    Except ArgError HttpRequest :=
  .ok
    { method := "DELETE"
      path := globalClustersBasePath groupID clusterName "customZoneMapping"
      queryParams := []
      body := none }

/- ### Go regexp group-syntax acceptance (for the schema's MustCompile calls) -/

/-- Modelled from Go's `regexp/syntax` parser, which is not part of this
repository's sources: after `(?` the parser accepts only `:` (non-capturing
group), `P` (named capture), or the flag letters `i`, `m`, `s`, `U`,
optionally negated with `-`; any other character — in particular the Perl
look-ahead introducers `!` and `=` — is rejected with
"invalid or unsupported Perl syntax", so `regexp.MustCompile` panics.
This checker decides whether every `(?`-group of a pattern uses a supported
introducer (the only way the three role_name patterns can fail to compile). -/
def goRegexpGroupsOk : List Char → Bool
  | [] => true
  | ['('] => true
  | ['(', '?'] => false
  | '(' :: '?' :: c :: rest =>
      (c = ':' || c = 'P' || c = 'i' || c = 'm' || c = 's' || c = 'U' || c = '-')
        && goRegexpGroupsOk rest
  | _ :: rest => goRegexpGroupsOk rest

/-- Whether `regexp.MustCompile` on this pattern gets past group parsing
without panicking. -/
def goRegexpMustCompileOk (pattern : String) : Bool :=
  goRegexpGroupsOk pattern.data

/-- The three patterns passed to `regexp.MustCompile` in the `role_name`
`ValidateFunc` (part_000 lines 34-38), in source order. -/
def roleNamePatterns : List String :=
  ["[\\w\\d-]+", "^atlasAdmin$", "^(?!xgen-).*"]

/-- The role Update validates (part_000 lines 159-166): the fetched remote
role, its actions list replaced exactly when the local actions field
changed. -/
def updActionsMerged (d : RoleData) (remote : CustomDBRole) : CustomDBRole :=
  if d.hasChangeActions then { remote with Actions := expandActions d } else remote

/-- The role Update sends (part_000 lines 168-172): additionally the
inherited-roles list replaced exactly when that field changed. -/
def updPayload (d : RoleData) (remote : CustomDBRole) : CustomDBRole :=
  if d.hasChangeInheritedRoles then
    { updActionsMerged d remote with InheritedRoles := expandInheritedRoles d }
  else updActionsMerged d remote

/-! ## Helper lemmas -/

instance (r : Resource) : Decidable (resourceShapeOk r) := by
  unfold resourceShapeOk
  infer_instance

instance {ε α : Type} [DecidableEq ε] [DecidableEq α] : DecidableEq (Except ε α) :=
  fun x y =>
    match x, y with
    | .ok a, .ok b =>
        if h : a = b then isTrue (by rw [h])
        else isFalse fun e => h (Except.ok.inj e)
    | .error a, .error b =>
        if h : a = b then isTrue (by rw [h])
        else isFalse fun e => h (Except.error.inj e)
    | .ok _, .error _ => isFalse fun e => Except.noConfusion e
    | .error _, .ok _ => isFalse fun e => Except.noConfusion e

theorem validateResources_none_iff (l : List Resource) :
    validateResources l = none ↔ ∀ r ∈ l, resourceShapeOk r := by
  induction l with
  | nil => simp [validateResources]
  | cons r rs ih =>
    rw [validateResources, List.forall_mem_cons]
    by_cases hc : r.Cluster
    · rw [if_pos hc]
      by_cases hne : r.Collection ≠ "" ∨ r.Db ≠ ""
      · rw [if_pos hne]
        simp only [resourceShapeOk]
        constructor
        · intro h; exact absurd h (by simp)
        · rintro ⟨⟨_, hdb, hcol⟩ | ⟨hcf, _, _⟩, _⟩
          · rcases hne with h1 | h1
            · exact absurd hcol h1
            · exact absurd hdb h1
          · rw [hc] at hcf; cases hcf
      · rw [if_neg hne]
        push_neg at hne
        have hok : resourceShapeOk r := .inl ⟨hc, hne.2, hne.1⟩
        simp [ih, hok]
    · have hc' : r.Cluster = false := by
        cases h : r.Cluster
        · rfl
        · exact absurd h hc
      rw [if_neg hc]
      by_cases he : r.Collection = "" ∨ r.Db = ""
      · rw [if_pos he]
        simp only [resourceShapeOk]
        constructor
        · intro h; exact absurd h (by simp)
        · rintro ⟨⟨hct, _, _⟩ | ⟨_, hdb, hcol⟩, _⟩
          · rw [hc'] at hct; cases hct
          · rcases he with h1 | h1
            · exact absurd h1 hcol
            · exact absurd h1 hdb
      · rw [if_neg he]
        push_neg at he
        have hok : resourceShapeOk r := .inr ⟨hc', he.2, he.1⟩
        simp [ih, hok]

theorem validateResources_some_msg (l : List Resource) (m : String)
    (h : validateResources l = some m) :
    m = clusterExclusiveErr ∨ m = clusterOrBothErr := by
  induction l with
  | nil => simp [validateResources] at h
  | cons r rs ih =>
    rw [validateResources] at h
    split_ifs at h
    · exact .inl (Option.some.inj h).symm
    · exact ih h
    · exact .inr (Option.some.inj h).symm
    · exact ih h

theorem validateActionsList_none_iff (l : List Action) :
    validateActionsList l = none ↔
      ∀ a ∈ l, ∀ r ∈ a.Resources, resourceShapeOk r := by
  induction l with
  | nil => simp [validateActionsList]
  | cons a as ih =>
    rw [validateActionsList, List.forall_mem_cons]
    cases hv : validateResources a.Resources with
    | some e =>
      simp only
      constructor
      · intro h; cases h
      · intro h
        rw [(validateResources_none_iff a.Resources).mpr h.1] at hv
        cases hv
    | none =>
      simpa [ih] using
        fun _ => (validateResources_none_iff a.Resources).mp hv

theorem validateActionsList_some_msg (l : List Action) (m : String)
    (h : validateActionsList l = some m) :
    m = clusterExclusiveErr ∨ m = clusterOrBothErr := by
  induction l with
  | nil => simp [validateActionsList] at h
  | cons a as ih =>
    rw [validateActionsList] at h
    cases hv : validateResources a.Resources with
    | some e =>
      rw [hv] at h
      exact (Option.some.inj h) ▸ validateResources_some_msg a.Resources e hv
    | none =>
      rw [hv] at h
      exact ih h

theorem flattenActionResources_expandActionResources (l : List ResourceMap) :
    (∀ m ∈ l, m.cluster = true → m.database_name = "" ∧ m.collection_name = "") →
    flattenActionResources (expandActionResources l) = l := by
  induction l with
  | nil => intro _; rfl
  | cons m ms ih =>
    intro h
    have hms := fun x hx => h x (List.mem_cons_of_mem m hx)
    obtain ⟨mcoll, mdb, mcl⟩ := m
    cases mcl with
    | true =>
      have h1 : mdb = "" := (h ⟨mcoll, mdb, true⟩ (List.mem_cons_self _ _) rfl).1
      have h2 : mcoll = "" := (h ⟨mcoll, mdb, true⟩ (List.mem_cons_self _ _) rfl).2
      subst h1
      subst h2
      simpa [expandActionResources, flattenActionResources] using ih hms
    | false =>
      simpa [expandActionResources, flattenActionResources] using ih hms

theorem expandActionResources_flattenActionResources (l : List Resource) :
    (∀ r ∈ l, r.Cluster = true → r.Db = "" ∧ r.Collection = "") →
    expandActionResources (flattenActionResources l) = l := by
  induction l with
  | nil => intro _; rfl
  | cons r rs ih =>
    intro h
    have hrs := fun x hx => h x (List.mem_cons_of_mem r hx)
    obtain ⟨rcoll, rdb, rcl⟩ := r
    cases rcl with
    | true =>
      have h1 : rdb = "" := (h ⟨rcoll, rdb, true⟩ (List.mem_cons_self _ _) rfl).1
      have h2 : rcoll = "" := (h ⟨rcoll, rdb, true⟩ (List.mem_cons_self _ _) rfl).2
      subst h1
      subst h2
      simpa [expandActionResources, flattenActionResources] using ih hrs
    | false =>
      simpa [expandActionResources, flattenActionResources] using ih hrs

theorem flattenActions_expandActionMaps (l : List ActionMap) :
    (∀ a ∈ l, ∀ m ∈ a.resources, m.cluster = true →
      m.database_name = "" ∧ m.collection_name = "") →
    flattenActions (l.map fun actionMap =>
      { Action := actionMap.action
        Resources := expandActionResources actionMap.resources }) = l := by
  induction l with
  | nil => intro _; rfl
  | cons a as ih =>
    intro h
    have has := fun x hx => h x (List.mem_cons_of_mem a hx)
    have ha := h a (List.mem_cons_self a as)
    obtain ⟨aname, ares⟩ := a
    simp only [List.map_cons, flattenActions] at ih ⊢
    have hres : flattenActionResources (expandActionResources ares) = ares :=
      flattenActionResources_expandActionResources ares ha
    simp [hres, ih has]

theorem expandActionMaps_flattenActions (l : List Action) :
    (∀ a ∈ l, ∀ r ∈ a.Resources, r.Cluster = true →
      r.Db = "" ∧ r.Collection = "") →
    ((flattenActions l).map fun actionMap =>
      { Action := actionMap.action
        Resources := expandActionResources actionMap.resources }) = l := by
  induction l with
  | nil => intro _; rfl
  | cons a as ih =>
    intro h
    have has := fun x hx => h x (List.mem_cons_of_mem a hx)
    have ha := h a (List.mem_cons_self a as)
    obtain ⟨aname, ares⟩ := a
    simp only [flattenActions, List.map_cons] at ih ⊢
    have hres : expandActionResources (flattenActionResources ares) = ares :=
      expandActionResources_flattenActionResources ares ha
    simp [hres]
    simpa [flattenActions] using ih has

theorem flattenInheritedRoles_expandMaps (l : List InheritedRoleMap) :
    flattenInheritedRoles (l.map fun roleMap =>
      { Db := roleMap.database_name, Role := roleMap.role_name }) = l := by
  induction l with
  | nil => rfl
  | cons x xs ih =>
    simpa [flattenInheritedRoles] using ih

theorem expandMaps_flattenInheritedRoles (l : List InheritedRole) :
    ((flattenInheritedRoles l).map fun roleMap =>
      ({ Db := roleMap.database_name, Role := roleMap.role_name } : InheritedRole)) = l := by
  induction l with
  | nil => rfl
  | cons x xs ih =>
    simpa [flattenInheritedRoles] using ih

theorem splitFirst_append (sep : Char) (s t : List Char) (h : sep ∉ s) :
    splitFirst sep (s ++ sep :: t) = some (s, t) := by
  induction s with
  | nil => simp [splitFirst]
  | cons c cs ih =>
    have hc : ¬(c = sep) := fun e => h (e ▸ List.mem_cons_self c cs)
    have hcs : sep ∉ cs := fun hm => h (List.mem_cons_of_mem c hm)
    simp [splitFirst, hc, ih hcs]

/-! ## Claim theorems -/

/-- C1: validateActions accepts a CustomDBRole if and only if every resource
entry of every action is either whole-cluster (flag set, database and
collection both empty) or scoped (flag unset, both non-empty); any other
entry is rejected with one of the two descriptive error messages. -/
theorem validateActions_accepts_iff (role : CustomDBRole) :
    (validateActions role = none ↔
      ∀ a ∈ role.Actions, ∀ r ∈ a.Resources, resourceShapeOk r) ∧
    (∀ m, validateActions role = some m →
      m = clusterExclusiveErr ∨ m = clusterOrBothErr) :=
  ⟨validateActionsList_none_iff role.Actions,
   fun m h => validateActionsList_some_msg role.Actions m h⟩

/-- Witness for C1 at a concrete role: one scoped action resource with both
fields non-empty is accepted. -/
theorem validateActions_accepts_iff_witness :
    validateActions ⟨"readerRole", [⟨"FIND", [⟨"orders", "sales", false⟩]⟩], []⟩ = none :=
  (validateActions_accepts_iff
      ⟨"readerRole", [⟨"FIND", [⟨"orders", "sales", false⟩]⟩], []⟩).1.mpr
    (by decide)

/-- C4: the import identifier is split on the first dash into exactly two
parts: "abc-def" parses to ("abc", "def"), "abcdef" fails with the format
error, "a-b-c" parses to ("a", "b-c"); in general a dash-free prefix is
separated from everything after the first dash. -/
theorem importState_split_spec :
    importStateParts "abc-def" = .ok ("abc", "def") ∧
    importStateParts "abcdef" = .error importFormatErr ∧
    importStateParts "a-b-c" = .ok ("a", "b-c") ∧
    ∀ s t : List Char, '-' ∉ s → goSplitN2 (s ++ '-' :: t) '-' = [s, t] := by
  refine ⟨by decide, by decide, by decide, fun s t h => ?_⟩
  simp [goSplitN2, splitFirst_append '-' s t h]

/-- Witness for C4: the general first-occurrence split at a concrete input. -/
theorem importState_split_spec_witness :
    goSplitN2 (['a', 'b'] ++ '-' :: ['c', '-', 'd']) '-' = [['a', 'b'], ['c', '-', 'd']] :=
  importState_split_spec.2.2.2 ['a', 'b'] ['c', '-', 'd'] (by decide)

/-- C5: DeleteManagedNamespace on a namespace with db "sales" and collection
"orders" issues a DELETE whose encoded query string is exactly
"collection=orders&db=sales" and which carries no request body. -/
theorem deleteManagedNamespace_query_spec (groupID clusterName key : String) :
    ∃ req,
      deleteManagedNamespace groupID clusterName
          (some ⟨"sales", "orders", key⟩) = .ok req ∧
      req.method = "DELETE" ∧
      rawQuery req = "collection=orders&db=sales" ∧
      req.body = none := by
  refine
    ⟨{ method := "DELETE"
       path := globalClustersBasePath groupID clusterName "managedNamespaces"
       queryParams := [("collection", "orders"), ("db", "sales")]
       body := none }, rfl, rfl, ?_, rfl⟩
  show urlValuesEncode [("collection", "orders"), ("db", "sales")] =
    "collection=orders&db=sales"
  decide

/-- C6: Get with an empty clusterName returns the argument error at once; no
request is built. -/
theorem get_empty_clusterName_argError (groupID : String) :
    globalClustersGet groupID "" = .error ⟨"username", "must be set"⟩ := by
  simp [globalClustersGet]

/-- C7: AddManagedNamespace, DeleteManagedNamespace and AddCustomZoneMappings
each return an argument error (and build no request) on a nil request
argument, while DeleteCustomZoneMappings validates nothing and always issues
the DELETE request. -/
theorem nil_checks_spec (groupID clusterName : String) :
    addManagedNamespace groupID clusterName none =
      .error ⟨"createRequest", "cannot be nil"⟩ ∧
    deleteManagedNamespace groupID clusterName none =
      .error ⟨"createRequest", "cannot be nil"⟩ ∧
    addCustomZoneMappings groupID clusterName none =
      .error ⟨"createRequest", "cannot be nil"⟩ ∧
    deleteCustomZoneMappings groupID clusterName =
      .ok
        { method := "DELETE"
          path := globalClustersBasePath groupID clusterName "customZoneMapping"
          queryParams := []
          body := none } :=
  ⟨rfl, rfl, rfl, rfl⟩

/-- C10: Get validates only clusterName: with any non-empty clusterName and an
arbitrary groupID (the empty string included) no argument error is returned
and the GET request carries the groupID interpolated into the path. -/
theorem get_validates_only_clusterName (groupID clusterName : String)
    (h : clusterName ≠ "") :
    globalClustersGet groupID clusterName =
      .ok
        { method := "GET"
          path := "groups/" ++ groupID ++ "/clusters/" ++ clusterName ++ "/globalWrites"
          queryParams := []
          body := none } := by
  simp [globalClustersGet, h]

/-- C2 counterexample: an actions list whose single resource entry has the
cluster flag set together with a non-empty database name is not returned
unchanged by flatten after expand — the database name is dropped. -/
theorem expand_flatten_roundtrip_cex :
    flattenActions (expandActions
      { project_id := "p", role_name := "r"
        actions := [⟨"FIND", [⟨"", "sales", true⟩]⟩]
        inherited_roles := []
        stateProjectID := "p", stateRoleName := "r"
        hasChangeActions := false, hasChangeInheritedRoles := false }) ≠
      [⟨"FIND", [⟨"", "sales", true⟩]⟩] := by decide

/-- C2 (amended): the expand and flatten helpers round-trip in both
directions an actions list in which every resource entry with the cluster
flag set has empty database and collection fields, and round-trip every
inherited-roles list unconditionally, preserving length and order. -/
theorem expand_flatten_roundtrip_amended :
    (∀ d : RoleData,
      (∀ a ∈ d.actions, ∀ m ∈ a.resources, m.cluster = true →
        m.database_name = "" ∧ m.collection_name = "") →
      flattenActions (expandActions d) = d.actions) ∧
    (∀ (d : RoleData) (acts : List Action),
      d.actions = flattenActions acts →
      (∀ a ∈ acts, ∀ r ∈ a.Resources, r.Cluster = true →
        r.Db = "" ∧ r.Collection = "") →
      expandActions d = acts) ∧
    (∀ d : RoleData,
      flattenInheritedRoles (expandInheritedRoles d) = d.inherited_roles) ∧
    (∀ (d : RoleData) (roles : List InheritedRole),
      d.inherited_roles = flattenInheritedRoles roles →
      expandInheritedRoles d = roles) := by
  refine ⟨?_, ?_, ?_, ?_⟩
  · intro d h
    cases hl : d.actions with
    | nil => simp [expandActions, hl, flattenActions]
    | cons a as =>
      rw [hl] at h
      simp only [expandActions, hl]
      exact flattenActions_expandActionMaps (a :: as) h
  · intro d acts hd h
    cases hacts : acts with
    | nil =>
      subst hacts
      have hd' : d.actions = [] := by simpa [flattenActions] using hd
      simp [expandActions, hd']
    | cons a as =>
      subst hacts
      have hd' : d.actions =
          ({ action := a.Action, resources := flattenActionResources a.Resources } ::
            flattenActions as) := by
        simpa [flattenActions] using hd
      simp only [expandActions, hd']
      have hmain := expandActionMaps_flattenActions (a :: as) h
      simpa [flattenActions] using hmain
  · intro d
    cases hl : d.inherited_roles with
    | nil => simp [expandInheritedRoles, hl, flattenInheritedRoles]
    | cons x xs =>
      simp only [expandInheritedRoles, hl]
      exact flattenInheritedRoles_expandMaps (x :: xs)
  · intro d roles hd
    cases hroles : roles with
    | nil =>
      subst hroles
      have hd' : d.inherited_roles = [] := by simpa [flattenInheritedRoles] using hd
      simp [expandInheritedRoles, hd']
    | cons x xs =>
      subst hroles
      have hd' : d.inherited_roles =
          ({ database_name := x.Db, role_name := x.Role } ::
            flattenInheritedRoles xs) := by
        simpa [flattenInheritedRoles] using hd
      simp only [expandInheritedRoles, hd']
      have hmain := expandMaps_flattenInheritedRoles (x :: xs)
      simpa [flattenInheritedRoles] using hmain

/-- Witness for C2 (amended) at a concrete valid actions list. -/
theorem expand_flatten_roundtrip_amended_witness :
    flattenActions (expandActions
      { project_id := "p", role_name := "r"
        actions := [⟨"FIND", [⟨"orders", "sales", false⟩, ⟨"", "", true⟩]⟩]
        inherited_roles := [⟨"sales", "read"⟩]
        stateProjectID := "p", stateRoleName := "r"
        hasChangeActions := false, hasChangeInheritedRoles := false }) =
      [⟨"FIND", [⟨"orders", "sales", false⟩, ⟨"", "", true⟩]⟩] :=
  expand_flatten_roundtrip_amended.1 _ (by decide)

/-- C3: when validateActions rejects, Create returns the validation error
having issued no network call with the identifier left unset, and Update
(validating the fetched role with the actions list merged when changed)
returns the validation error having issued only the initial fetch — no
update call. -/
theorem validation_blocks_mutation (d : RoleData) (api : RolesAPI) (msg : String) :
    (validateActions (customDBRoleReqOf d) = some msg →
      resourceCreate d api = { err := some msg, calls := [], idSet := none }) ∧
    (∀ remote, api.get d.stateProjectID d.stateRoleName = .ok remote →
      validateActions (updActionsMerged d remote) = some msg →
      resourceUpdate d api =
        (some msg, [.getRole d.stateProjectID d.stateRoleName])) := by
  constructor
  · intro h
    simp [resourceCreate, h]
  · intro remote hget hval
    simp only [updActionsMerged] at hval
    simp [resourceUpdate, hget, hval]

/-- Witness for C3: a role whose scoped resource entry has empty database and
collection is rejected and Create issues nothing. -/
theorem validation_blocks_mutation_witness :
    resourceCreate
      { project_id := "p", role_name := "badRole"
        actions := [⟨"FIND", [⟨"", "", false⟩]⟩]
        inherited_roles := []
        stateProjectID := "p", stateRoleName := "badRole"
        hasChangeActions := false, hasChangeInheritedRoles := false }
      ⟨fun _ _ => .error "down", fun _ _ => .error "down", fun _ _ _ => .error "down"⟩ =
      { err := some clusterOrBothErr, calls := [], idSet := none } :=
  (validation_blocks_mutation _ _ _).1 (by decide)

/-- C8: Update fetches the current remote role first and fails on a fetch
error with no further calls; on success the payload's actions list is the
local one exactly when that field changed (otherwise the remote one), same
for inherited roles; a validation failure is returned without an update
call; otherwise exactly one update call with that payload is issued, whose
failure is wrapped and returned, and whose success is followed by a re-read
whose outcome Update returns. -/
theorem resourceUpdate_flow_spec (d : RoleData) (api : RolesAPI) :
    (∀ e, api.get d.stateProjectID d.stateRoleName = .error e →
      resourceUpdate d api =
        (some ("error getting custom db role information: " ++ e),
         [.getRole d.stateProjectID d.stateRoleName])) ∧
    (∀ remote, api.get d.stateProjectID d.stateRoleName = .ok remote →
      ((updPayload d remote).Actions =
        (if d.hasChangeActions then expandActions d else remote.Actions)) ∧
      ((updPayload d remote).InheritedRoles =
        (if d.hasChangeInheritedRoles then expandInheritedRoles d
         else remote.InheritedRoles)) ∧
      (∀ m, validateActions (updActionsMerged d remote) = some m →
        resourceUpdate d api =
          (some m, [.getRole d.stateProjectID d.stateRoleName])) ∧
      (validateActions (updActionsMerged d remote) = none →
        (∀ e, api.update d.stateProjectID d.stateRoleName (updPayload d remote) = .error e →
          resourceUpdate d api =
            (some ("error updating custom db role (" ++ d.stateRoleName ++ "): " ++ e),
             [.getRole d.stateProjectID d.stateRoleName,
              .updateRole d.stateProjectID d.stateRoleName (updPayload d remote)])) ∧
        (∀ res, api.update d.stateProjectID d.stateRoleName (updPayload d remote) = .ok res →
          resourceUpdate d api =
            ((resourceRead d api).1,
             .getRole d.stateProjectID d.stateRoleName ::
               .updateRole d.stateProjectID d.stateRoleName (updPayload d remote) ::
               (resourceRead d api).2.1)))) := by
  constructor
  · intro e he
    simp [resourceUpdate, he]
  · intro remote hget
    refine ⟨?_, ?_, ?_, ?_⟩
    · cases hI : d.hasChangeInheritedRoles <;> cases hA : d.hasChangeActions <;>
        simp [updPayload, updActionsMerged, hI, hA]
    · cases hI : d.hasChangeInheritedRoles <;> cases hA : d.hasChangeActions <;>
        simp [updPayload, updActionsMerged, hI, hA]
    · intro m hval
      simp only [updActionsMerged] at hval
      simp [resourceUpdate, hget, hval]
    · intro hval
      simp only [updActionsMerged] at hval
      constructor
      · intro e hupd
        simp only [updPayload, updActionsMerged] at hupd
        simp [resourceUpdate, hget, hval, hupd, updPayload, updActionsMerged]
      · intro res hupd
        simp only [updPayload, updActionsMerged] at hupd
        simp [resourceUpdate, hget, hval, hupd, updPayload, updActionsMerged]

/-- Witness for C8: a failing fetch is returned with only the get call. -/
theorem resourceUpdate_flow_spec_witness :
    resourceUpdate
      { project_id := "p", role_name := "r"
        actions := [], inherited_roles := []
        stateProjectID := "p", stateRoleName := "r"
        hasChangeActions := false, hasChangeInheritedRoles := false }
      ⟨fun _ _ => .error "down", fun _ _ => .error "down", fun _ _ _ => .error "down"⟩ =
      (some ("error getting custom db role information: " ++ "down"),
       [.getRole "p" "r"]) :=
  (resourceUpdate_flow_spec _ _).1 "down" rfl

/-- C9: evaluating Go regexp group-syntax acceptance on the three role_name
patterns: the first two compile, the negative look-ahead pattern does not,
so regexp.MustCompile panics while the schema is constructed. -/
theorem roleNamePatterns_compile_eval :
    roleNamePatterns.map goRegexpMustCompileOk = [true, true, false] ∧
    goRegexpMustCompileOk "^(?!xgen-).*" = false := by decide

/-- Witness for C10 at the empty groupID. -/
theorem get_validates_only_clusterName_witness :
    globalClustersGet "" "Cluster0" =
      .ok
        { method := "GET"
          path := "groups/" ++ "" ++ "/clusters/" ++ "Cluster0" ++ "/globalWrites"
          queryParams := []
          body := none } :=
  get_validates_only_clusterName "" "Cluster0" (by decide)

end MongoDBAtlas
